import Mathlib

/-!
Verification of `src/config/src/network_id.rs` (network-identity and
topology-classification layer).

The Rust source is shallowly embedded: each enum becomes a Lean inductive,
each pure method becomes a Lean function translated clause by clause from
the source, and the serde compatibility codec is modelled as total
functions between the wire-tag types that the two `ConvertNetworkId`
helper enums in the source describe.
-/

/-- Node role, from `crate::config::RoleType`.  Its definition is outside the
given sources, but the exhaustive `match role { Validator, FullNode }` arms in
`network_id.rs` fix exactly these two variants. -/
inductive RoleType
  | Validator
  | FullNode
deriving DecidableEq, Fintype, Repr

/-- Peer role, from `crate::config::PeerRole`.  Its definition is outside the
given sources; the seven variants are the ones used by `network_id.rs` and
listed by the specification. -/
inductive PeerRole
  | Validator
  | PreferredUpstream
  | Upstream
  | ValidatorFullNode
  | Downstream
  | Known
  | Unknown
deriving DecidableEq, Fintype, Repr

/-- `NetworkId`: the three live logical networks (`#[repr(u8)]` with
discriminants 0, 3, 4). -/
inductive NetworkId
  | Validator
  | Vfn
  | Public
deriving DecidableEq, Fintype, Repr

/-- The `#[repr(u8)]` discriminant of each variant (`Validator = 0`,
`Vfn = 3`, `Public = 4`); the derived `Ord` compares by this value. -/
def NetworkId.rank : NetworkId → Nat
  | .Validator => 0
  | .Vfn => 3
  | .Public => 4

/-- The derived `PartialOrd`/`Ord` on `NetworkId` orders by discriminant. -/
instance : LT NetworkId := ⟨fun a b => a.rank < b.rank⟩

instance (a b : NetworkId) : Decidable (a < b) :=
  inferInstanceAs (Decidable (a.rank < b.rank))

/-- `const VFN_NETWORK: &str = "vfn"`. -/
def VFN_NETWORK : String := "vfn"

/-- `NetworkId::upstream_roles`, translated clause by clause. -/
def NetworkId.upstream_roles : NetworkId → RoleType → List PeerRole
  | .Validator, _ => [PeerRole.Validator]
  | .Public, _ => [PeerRole.PreferredUpstream, PeerRole.Upstream, PeerRole.ValidatorFullNode]
  | .Vfn, .Validator => []
  | .Vfn, .FullNode => [PeerRole.Validator]

/-- `NetworkId::downstream_roles`, translated clause by clause. -/
def NetworkId.downstream_roles : NetworkId → RoleType → List PeerRole
  | .Validator, _ => [PeerRole.Validator]
  | .Public, _ => [PeerRole.ValidatorFullNode, PeerRole.Downstream, PeerRole.Known, PeerRole.Unknown]
  | .Vfn, .Validator => [PeerRole.ValidatorFullNode]
  | .Vfn, .FullNode => []

/-- `NetworkId::as_str`. -/
def NetworkId.as_str : NetworkId → String
  | .Validator => "Validator"
  | .Public => "Public"
  | .Vfn => VFN_NETWORK

/-- `str::to_lowercase`, modelled as a per-character lowercase map over the
string's characters (faithful to the source on all ASCII input, which is all
that the three canonical tags can match). -/
def to_lowercase (s : String) : String :=
  String.mk (s.data.map Char.toLower)

/-- `FromStr for NetworkId`: lowercase the input, then match the three
canonical tags; the match's string patterns become an if-chain. -/
def NetworkId.from_str (s : String) : Except String NetworkId :=
  let t := to_lowercase s
  if t = "validator" then Except.ok NetworkId.Validator
  else if t = "public" then Except.ok NetworkId.Public
  else if t = VFN_NETWORK then Except.ok NetworkId.Vfn
  else Except.error "Invalid network name"

/-- The serializer-side helper enum (named `ConvertNetworkId` inside
`Serialize for NetworkId`): the legacy wire shape with three tags. -/
inductive ConvertNetworkIdSer
  | Validator
  | Public
  | Private (s : String)
deriving DecidableEq, Repr

/-- The deserializer-side helper enum (named `ConvertNetworkId` inside
`Deserialize for NetworkId`): the five tag forms the decoder accepts. -/
inductive ConvertNetworkIdDe
  | Validator
  | Public
  | Private (s : String)
  | Vfn
  | NewPublic
deriving DecidableEq, Repr

/-- `Serialize for NetworkId`: always emit the legacy shape. -/
def NetworkId.serialize : NetworkId → ConvertNetworkIdSer
  | .Validator => ConvertNetworkIdSer.Validator
  | .Public => ConvertNetworkIdSer.Public
  | .Vfn => ConvertNetworkIdSer.Private VFN_NETWORK

/-- The serializer-side tags are a prefix of the deserializer-side tags: a
legacy-shape payload read back through the current decoder carries the same
tag name (and, in the binary form, the same discriminant 0, 1, 2). -/
def ConvertNetworkIdSer.toWire : ConvertNetworkIdSer → ConvertNetworkIdDe
  | .Validator => ConvertNetworkIdDe.Validator
  | .Public => ConvertNetworkIdDe.Public
  | .Private s => ConvertNetworkIdDe.Private s

/-- `Deserialize for NetworkId`: the total match mapping each accepted tag
form to a live variant, translated arm by arm. -/
def NetworkId.deserialize : ConvertNetworkIdDe → NetworkId
  | ConvertNetworkIdDe.Validator => NetworkId.Validator
  | ConvertNetworkIdDe.Public => NetworkId.Public
  | ConvertNetworkIdDe.Vfn => NetworkId.Vfn
  | ConvertNetworkIdDe.NewPublic => NetworkId.Public
  | ConvertNetworkIdDe.Private _ => NetworkId.Vfn

/-- `Iterator::position`: index of the first element satisfying the
predicate, used by `get_upstream_preference` via `.iter().position(..)`. -/
def position (p : α → Bool) : List α → Option Nat
  | [] => none
  | a :: l => if p a then some 0 else (position p l).map (fun i => i + 1)

/-- `UpstreamConfig`: ordered list of upstream networks. -/
structure UpstreamConfig where
  networks : List NetworkId
deriving DecidableEq, Repr

/-- `UpstreamConfig::get_upstream_preference`. -/
def UpstreamConfig.get_upstream_preference (c : UpstreamConfig) (network : NetworkId) :
    Option Nat :=
  if network = NetworkId.Validator then some 0
  else position (fun upstream_network => upstream_network == network) c.networks

/-- `UpstreamConfig::upstream_count`: `max(1, networks.len())`. -/
def UpstreamConfig.upstream_count (c : UpstreamConfig) : Nat :=
  max 1 c.networks.length

/-- C8: under the derived discriminant order, `Validator < Vfn < Public`
(and, by transitivity, `Validator < Public`); the order is total, so sorting
places `Validator` first, `Vfn` second, `Public` last. -/
theorem networkId_strict_order :
    NetworkId.Validator < NetworkId.Vfn ∧
    NetworkId.Vfn < NetworkId.Public ∧
    NetworkId.Validator < NetworkId.Public ∧
    ∀ a b : NetworkId, a < b ∨ a = b ∨ b < a := by
  decide

/-- C1: `upstream_roles` and `downstream_roles` are total and deterministic
over the 3×2 domain and return exactly the resolution table's ordered
lists. -/
theorem topology_resolution_table :
    ∀ r : RoleType,
      NetworkId.Validator.upstream_roles r = [PeerRole.Validator] ∧
      NetworkId.Validator.downstream_roles r = [PeerRole.Validator] ∧
      NetworkId.Public.upstream_roles r =
        [PeerRole.PreferredUpstream, PeerRole.Upstream, PeerRole.ValidatorFullNode] ∧
      NetworkId.Public.downstream_roles r =
        [PeerRole.ValidatorFullNode, PeerRole.Downstream, PeerRole.Known, PeerRole.Unknown] ∧
      NetworkId.Vfn.upstream_roles RoleType.Validator = [] ∧
      NetworkId.Vfn.downstream_roles RoleType.Validator = [PeerRole.ValidatorFullNode] ∧
      NetworkId.Vfn.upstream_roles RoleType.FullNode = [PeerRole.Validator] ∧
      NetworkId.Vfn.downstream_roles RoleType.FullNode = [] := by
  decide

/-- C2: the decoder is total over the five accepted tag forms and maps them
to the three live variants: legacy `Validator` and `Public` to themselves,
current-shape `Vfn` to `Vfn`, transitional `NewPublic` to `Public`, and
`Private(s)` to `Vfn` for every string `s`; on these forms it never fails
(it is a total function into `NetworkId`). -/
theorem deserialize_five_forms :
    NetworkId.deserialize ConvertNetworkIdDe.Validator = NetworkId.Validator ∧
    NetworkId.deserialize ConvertNetworkIdDe.Public = NetworkId.Public ∧
    NetworkId.deserialize ConvertNetworkIdDe.Vfn = NetworkId.Vfn ∧
    NetworkId.deserialize ConvertNetworkIdDe.NewPublic = NetworkId.Public ∧
    ∀ s : String, NetworkId.deserialize (ConvertNetworkIdDe.Private s) = NetworkId.Vfn :=
  ⟨rfl, rfl, rfl, rfl, fun _ => rfl⟩

/-- C3: serialization always emits the legacy shape — `Validator` and
`Public` as their legacy tags and `Vfn` as `Private("vfn")` — and its image
on the wire is never the current-shape `Vfn` or `NewPublic` tag. -/
theorem serialize_legacy_only :
    NetworkId.serialize NetworkId.Validator = ConvertNetworkIdSer.Validator ∧
    NetworkId.serialize NetworkId.Public = ConvertNetworkIdSer.Public ∧
    NetworkId.serialize NetworkId.Vfn = ConvertNetworkIdSer.Private "vfn" ∧
    ∀ v : NetworkId,
      (NetworkId.serialize v).toWire ≠ ConvertNetworkIdDe.Vfn ∧
      (NetworkId.serialize v).toWire ≠ ConvertNetworkIdDe.NewPublic := by
  refine ⟨rfl, rfl, rfl, fun v => ?_⟩
  cases v <;> exact ⟨fun h => ConvertNetworkIdDe.noConfusion h,
    fun h => ConvertNetworkIdDe.noConfusion h⟩

/-- C4: encode-then-decode round trip — serializing any live variant and
decoding the resulting wire tag yields the original variant. -/
theorem serialize_deserialize_roundtrip :
    ∀ v : NetworkId, NetworkId.deserialize (NetworkId.serialize v).toWire = v := by
  intro v
  cases v <;> rfl

/-- C9: textual round trip at the public interface — `from_str (as_str v)`
returns `Ok v` for every variant, the mixed-case tags included, because
`from_str` lowercases its input first. -/
theorem from_str_as_str_roundtrip :
    ∀ v : NetworkId, NetworkId.from_str v.as_str = Except.ok v := by
  intro v
  cases v <;> rfl

/-- A `position` result always indexes into the list. -/
theorem position_lt_length {α : Type} {p : α → Bool} {l : List α} {k : Nat}
    (h : position p l = some k) : k < l.length := by
  induction l generalizing k with
  | nil => simp [position] at h
  | cons a l ih =>
    simp only [position] at h
    by_cases hp : p a
    · rw [if_pos hp] at h
      cases h
      simp
    · rw [if_neg hp] at h
      cases hpos : position p l with
      | none => rw [hpos] at h; simp at h
      | some j =>
        rw [hpos] at h
        simp only [Option.map_some', Option.some.injEq] at h
        subst h
        exact Nat.succ_lt_succ (ih hpos)

/-- `position` with an equality test finds exactly the index of the first
occurrence: it returns `some k` iff the `k`-th element is the sought value
and the value does not occur among the first `k` elements. -/
theorem position_beq_eq_some_iff {α : Type} [DecidableEq α] {n : α} {l : List α} {k : Nat} :
    position (fun m => m == n) l = some k ↔ l.get? k = some n ∧ n ∉ l.take k := by
  induction l generalizing k with
  | nil => simp [position]
  | cons a l ih =>
    by_cases h : a = n
    · subst h
      cases k with
      | zero => simp [position]
      | succ j => simp [position, List.take_succ_cons]
    · cases k with
      | zero => simp [position, h, Ne.symm h]
      | succ j => simp [position, h, Ne.symm h, ih, List.take_succ_cons]

/-- `position` returns `none` iff no element satisfies the predicate. -/
theorem position_eq_none_iff {α : Type} {p : α → Bool} {l : List α} :
    position p l = none ↔ ∀ a ∈ l, p a = false := by
  induction l with
  | nil => simp [position]
  | cons a l ih =>
    by_cases hp : p a
    · simp [position, hp]
    · simp [position, hp, ih]

/-- C5: `get_upstream_preference` returns `Some 0` for `Validator` no matter
what the configured list holds; for any other network it returns the
zero-based index of the first occurrence in `networks`, and `None` when the
network is absent. -/
theorem get_upstream_preference_spec (c : UpstreamConfig) (n : NetworkId) :
    c.get_upstream_preference NetworkId.Validator = some 0 ∧
    (n ≠ NetworkId.Validator →
      (n ∉ c.networks → c.get_upstream_preference n = none) ∧
      ∀ k, c.get_upstream_preference n = some k ↔
        c.networks.get? k = some n ∧ n ∉ c.networks.take k) := by
  refine ⟨by simp [UpstreamConfig.get_upstream_preference], fun hn => ⟨fun habs => ?_, fun k => ?_⟩⟩
  · rw [UpstreamConfig.get_upstream_preference, if_neg hn, position_eq_none_iff]
    intro a ha
    simp only [beq_eq_false_iff_ne, ne_eq]
    intro hcontra
    exact habs (hcontra ▸ ha)
  · rw [UpstreamConfig.get_upstream_preference, if_neg hn]
    exact position_beq_eq_some_iff

/-- Witness for C5 at the spec's own example `networks = [Public, Vfn]`. -/
theorem get_upstream_preference_spec_witness :
    (UpstreamConfig.mk [NetworkId.Public, NetworkId.Vfn]).get_upstream_preference
      NetworkId.Vfn = some 1 :=
  (((get_upstream_preference_spec (UpstreamConfig.mk [NetworkId.Public, NetworkId.Vfn])
    NetworkId.Vfn).2 (by decide)).2 1).mpr (by decide)

/-- C6: `upstream_count` is `max(1, networks.len())`: it is `1` for the
empty configuration and is never `0`. -/
theorem upstream_count_spec (c : UpstreamConfig) :
    c.upstream_count = max 1 c.networks.length ∧
    (UpstreamConfig.mk []).upstream_count = 1 ∧
    0 < c.upstream_count := by
  refine ⟨rfl, rfl, ?_⟩
  exact lt_of_lt_of_le Nat.zero_lt_one (le_max_left _ _)

/-- C7: `from_str` succeeds exactly on case-insensitive spellings of the
three canonical tags, returning the matching variant, and fails with the
`InvalidNetworkName` error text on everything else; in particular `"VFN"`
parses to `Vfn` and the misspelling `"vlaidator"` is rejected. -/
theorem from_str_spec (s : String) :
    (to_lowercase s = "validator" → NetworkId.from_str s = Except.ok NetworkId.Validator) ∧
    (to_lowercase s = "public" → NetworkId.from_str s = Except.ok NetworkId.Public) ∧
    (to_lowercase s = "vfn" → NetworkId.from_str s = Except.ok NetworkId.Vfn) ∧
    (to_lowercase s ≠ "validator" → to_lowercase s ≠ "public" → to_lowercase s ≠ "vfn" →
      NetworkId.from_str s = Except.error "Invalid network name") ∧
    NetworkId.from_str "VFN" = Except.ok NetworkId.Vfn ∧
    NetworkId.from_str "vlaidator" = Except.error "Invalid network name" := by
  refine ⟨fun h => ?_, fun h => ?_, fun h => ?_, fun h1 h2 h3 => ?_, rfl, rfl⟩
  · simp [NetworkId.from_str, VFN_NETWORK, h]
  · simp [NetworkId.from_str, VFN_NETWORK, h]
  · simp [NetworkId.from_str, VFN_NETWORK, h]
  · simp only [NetworkId.from_str, VFN_NETWORK]
    rw [if_neg h1, if_neg h2, if_neg h3]

/-- Witness for C7: discharging the case-insensitive hypotheses at the
concrete input `"Public"`. -/
theorem from_str_spec_witness :
    NetworkId.from_str "Public" = Except.ok NetworkId.Public :=
  (from_str_spec "Public").2.1 (by decide)

/-- C10: every rank `get_upstream_preference` ever returns is strictly below
`upstream_count`, for every configuration (duplicates included) and every
network. -/
theorem preference_lt_upstream_count (c : UpstreamConfig) (n : NetworkId) (k : Nat)
    (h : c.get_upstream_preference n = some k) : k < c.upstream_count := by
  rw [UpstreamConfig.get_upstream_preference] at h
  by_cases hv : n = NetworkId.Validator
  · rw [if_pos hv] at h
    cases h
    exact lt_of_lt_of_le Nat.zero_lt_one (le_max_left _ _)
  · rw [if_neg hv] at h
    exact lt_of_lt_of_le (position_lt_length h) (le_max_right _ _)

/-- Witness for C10 at a concrete configuration and network. -/
theorem preference_lt_upstream_count_witness :
    0 < (UpstreamConfig.mk [NetworkId.Public]).upstream_count :=
  preference_lt_upstream_count (UpstreamConfig.mk [NetworkId.Public]) NetworkId.Public 0
    (by decide)
